import Mathlib

/-!
Verification of the drift-kmno-bot position control loop.

The repository contains three variants of the bot logic in `src/bot.ts`
(an enum-state `TradingBot`, a string-state `TradingBot`, and a `SpreadBot`),
plus the venue helpers in `src/drift.ts`, the risk checks in `src/risk.ts`
and the signal helpers in `src/signal.ts`.  This file gives a shallow
embedding of the pieces the claims depend on.  Quantities and prices are
modelled as rationals; the IEEE special values NaN and Infinity that arise
in the liquidity computation are modelled explicitly by `ExtNum`.  Network
effects (order submission, venue queries) are modelled by passing the
outcome of each external call as an explicit input, and each submitted
order is recorded in an order log.
-/

namespace DriftBot

/-- Signal type from `src/types.ts`: `-1 | 0 | 1` (Short, Flat, Long). -/
inductive Signal where
  | short
  | flat
  | long
  deriving DecidableEq, Repr

/-- Numeric value of a signal, as used in arithmetic like
`signal * TRADING_CONFIG.DRIFT_QUANTITY` in `bot.ts`. -/
def Signal.val : Signal → ℚ
  | .short => -1
  | .flat => 0
  | .long => 1

/-- The two perp markets traded by the bot. -/
inductive Market where
  | DRIFT
  | KMNO
  deriving DecidableEq, Repr

/-- `PositionDirection` from the venue SDK. -/
inductive PositionDirection where
  | LONG
  | SHORT
  deriving DecidableEq, Repr

/-- `Position` / `SpreadPosition` from `src/types.ts`:
signed per-leg quantities plus the signal that produced them. -/
structure Position where
  drift : ℚ
  kmno : ℚ
  signal : Signal
  deriving DecidableEq, Repr

/-- One market-order submission to the venue
(`driftClient.placePerpOrder` / `placeOrder`): market, direction,
base quantity and the reduceOnly flag. -/
structure Order where
  market : Market
  direction : PositionDirection
  quantity : ℚ
  reduceOnly : Bool
  deriving DecidableEq, Repr

/-- Bot operational states from `src/types.ts` (union of the states used
by the three variants). -/
inductive BotState where
  | INITIALIZING
  | HEALTHY
  | DEGRADED
  | RISK_BREACH
  | EMERGENCY
  | SHUTDOWN
  deriving DecidableEq, Repr

/-- `TRADING_CONFIG.DRIFT_QUANTITY` from `src/config.ts`. -/
def DRIFT_QUANTITY : ℚ := 10

/-- `TRADING_CONFIG.KMNO_QUANTITY` from `src/config.ts`. -/
def KMNO_QUANTITY : ℚ := 100

/-- `RISK_CONFIG.MAX_SLIPPAGE_BPS` from `src/config.ts`. -/
def MAX_SLIPPAGE_BPS : ℚ := 25

/-- `RISK_CONFIG.CLOSE_MAX_SLIPPAGE_BPS` from `src/config.ts`. -/
def CLOSE_MAX_SLIPPAGE_BPS : ℚ := 50

/-- `RISK_CONFIG.MAX_RETRIES` from `src/config.ts`. -/
def MAX_RETRIES : Nat := 3

/-- The fixed reconciliation tolerance: the literal `0.1` compared against
position differences in every `reconcilePosition` variant in `src/bot.ts`. -/
def TOLERANCE : ℚ := 1 / 10

/-- IEEE-style extended number: a finite rational, Infinity, or NaN.
Used for the `estimatedSlippage` field, which the JS code can set to
`Infinity` (empty or too-shallow book) or silently produce as `NaN`
(the unguarded `totalValue / totalSize` division with `totalSize = 0`). -/
inductive ExtNum where
  | fin (q : ℚ)
  | inf
  | nan
  deriving DecidableEq, Repr

/-- The JS comparison `x > b` for an extended `x` against a finite bound:
`NaN > b` is false, `Infinity > b` is true. -/
def ExtNum.gt : ExtNum → ℚ → Bool
  | .fin q, b => decide (b < q)
  | .inf, _ => true
  | .nan, _ => false

/-- JS division `a / b` of two finite doubles as an extended number:
`0 / 0 = NaN`, `a / 0 = ±Infinity` for `a ≠ 0` (the sign is irrelevant
downstream, where only `Math.abs` or `>` is applied). -/
def ExtNum.div (a b : ℚ) : ExtNum :=
  if b = 0 then (if a = 0 then .nan else .inf) else .fin (a / b)

/-- `LiquidityCheck` from `src/types.ts`. -/
structure LiquidityCheck where
  canFill : Bool
  estimatedSlippage : ExtNum
  deriving DecidableEq, Repr

/-- One order-book level as consumed by `checkLiquidity`; `price` and
`size` are the parsed values already divided by the venue precision
constants. -/
structure BookLevel where
  price : ℚ
  size : ℚ
  deriving DecidableEq, Repr

/-- The accumulation loop of `checkLiquidity` in `src/drift.ts`
(lines 173-182): walk the levels, at each one fill
`min(levelSize, orderSize - totalSize)`, and break once
`totalSize >= orderSize`.  Returns the final `(totalSize, totalValue)`. -/
def bookWalk (orderSize : ℚ) : List BookLevel → ℚ × ℚ → ℚ × ℚ
  | [], acc => acc
  | l :: rest, (totalSize, totalValue) =>
    let fillSize := min l.size (orderSize - totalSize)
    let totalValue' := totalValue + fillSize * l.price
    let totalSize' := totalSize + fillSize
    if orderSize ≤ totalSize' then (totalSize', totalValue')
    else bookWalk orderSize rest (totalSize', totalValue')

/-- `Math.abs((avgPrice - bestPrice) / bestPrice)` from `src/drift.ts`
line 189, for a possibly non-finite `avgPrice`. -/
def slippageOf (avgPrice : ExtNum) (bestPrice : ℚ) : ExtNum :=
  match avgPrice with
  | .nan => .nan
  | .inf => .inf
  | .fin a =>
    if bestPrice = 0 then (if a - bestPrice = 0 then .nan else .inf)
    else .fin (|a - bestPrice| / |bestPrice|)

/-- `checkLiquidity` from `src/drift.ts` (lines 151-200), given the parsed
book side.  An empty side yields `canFill=false, slippage=Infinity`;
a side too shallow for `orderSize` likewise; otherwise the average fill
price over the consumed levels determines the slippage.  Note the
division `totalValue / totalSize` is not guarded against `totalSize = 0`. -/
def checkLiquidity (orders : List BookLevel) (orderSize : ℚ) : LiquidityCheck :=
  match orders with
  | [] => ⟨false, .inf⟩
  | best :: _ =>
    let bestPrice := best.price
    let walk := bookWalk orderSize orders (0, 0)
    if walk.1 < orderSize then ⟨false, .inf⟩
    else ⟨true, slippageOf (ExtNum.div walk.2 walk.1) bestPrice⟩

/-- The accumulation loop of `SpreadBot.checkLiquidity` in `src/bot.ts`
(lines 1126-1139): same walk, but with an early `remaining <= 0` break
before accumulating. -/
def bookWalkSB (orderSize : ℚ) : List BookLevel → ℚ × ℚ → ℚ × ℚ
  | [], acc => acc
  | l :: rest, (totalSize, totalValue) =>
    let remaining := orderSize - totalSize
    if remaining ≤ 0 then (totalSize, totalValue)
    else
      let fillSize := if l.size < remaining then l.size else remaining
      let totalValue' := totalValue + fillSize * l.price
      let totalSize' := totalSize + fillSize
      if orderSize ≤ totalSize' then (totalSize', totalValue')
      else bookWalkSB orderSize rest (totalSize', totalValue')

/-- The slippage expression of `SpreadBot.checkLiquidity` (lines 1145-1149):
`avg > best ? (avg-best)/best : (best-avg)/best`, for possibly
non-finite `avg` (book prices are positive in practice, so `Infinity`
maps to `Infinity`). -/
def slippageOfSB (avgPrice : ExtNum) (bestPrice : ℚ) : ExtNum :=
  match avgPrice with
  | .nan => .nan
  | .inf => .inf
  | .fin a =>
    if bestPrice = 0 then (if a = 0 then .nan else .inf)
    else .fin (if bestPrice < a then (a - bestPrice) / bestPrice
               else (bestPrice - a) / bestPrice)

/-- `SpreadBot.checkLiquidity` from `src/bot.ts` (lines 1104-1160), given
the parsed book side. -/
def checkLiquiditySB (orders : List BookLevel) (orderSize : ℚ) : LiquidityCheck :=
  match orders with
  | [] => ⟨false, .inf⟩
  | best :: _ =>
    let bestPrice := best.price
    let walk := bookWalkSB orderSize orders (0, 0)
    if walk.1 < orderSize then ⟨false, .inf⟩
    else ⟨true, slippageOfSB (ExtNum.div walk.2 walk.1) bestPrice⟩

/-- `validateSlippage` from `src/risk.ts` (lines 6-24), as the success
boolean of its `Result`: fails exactly when
`slippage > maxSlippage / 10000` under JS comparison semantics. -/
def validateSlippage (slippage : ExtNum) (isClosing : Bool) : Bool :=
  let maxSlippage := if isClosing then CLOSE_MAX_SLIPPAGE_BPS else MAX_SLIPPAGE_BPS
  let maxSlippageDecimal := maxSlippage / 10000
  !(slippage.gt maxSlippageDecimal)

/-- `validateLiquidity` from `src/risk.ts` (lines 27-39): reject when the
book cannot fill, otherwise defer to the slippage check. -/
def validateLiquidity (liquidityCheck : LiquidityCheck) (isClosing : Bool) : Bool :=
  liquidityCheck.canFill && validateSlippage liquidityCheck.estimatedSlippage isClosing

/-- `validateTrade` from `src/risk.ts` (lines 42-60): both legs must pass
`validateLiquidity`. -/
def validateTrade (driftLiquidity kmnoLiquidity : LiquidityCheck) (isClosing : Bool) : Bool :=
  validateLiquidity driftLiquidity isClosing && validateLiquidity kmnoLiquidity isClosing

/-- `SpreadBot.validateLiquidity` from `src/bot.ts` (lines 1162-1190), as
its success boolean: same acceptance condition as `risk.ts`, written
per-market in the SpreadBot variant. -/
def validateLiquiditySB (liquidityCheck : LiquidityCheck) (isClosing : Bool) : Bool :=
  if !liquidityCheck.canFill then false
  else
    let maxSlippage := if isClosing then CLOSE_MAX_SLIPPAGE_BPS / 10000
                       else MAX_SLIPPAGE_BPS / 10000
    !(liquidityCheck.estimatedSlippage.gt maxSlippage)

/-- The signal implied by the current internal position: the idiom
`this.position?.signal || 0` used throughout `src/bot.ts` (FLAT if no
position; note `|| 0` maps a stored FLAT signal to FLAT as well). -/
def currentSignalOf : Option Position → Signal
  | some p => p.signal
  | none => .flat

/-- `shouldChangePosition` from `src/signal.ts` (lines 17-22). -/
def shouldChangePosition (currentSignal newSignal : Signal) : Bool :=
  currentSignal != newSignal

/-- The target DRIFT leg used by `reconcilePosition`
(`targetSignal * TRADING_CONFIG.DRIFT_QUANTITY`). -/
def targetDriftOf (pos : Option Position) : ℚ :=
  (currentSignalOf pos).val * DRIFT_QUANTITY

/-- The target KMNO leg used by `reconcilePosition`
(`-targetSignal * TRADING_CONFIG.KMNO_QUANTITY`). -/
def targetKmnoOf (pos : Option Position) : ℚ :=
  -(currentSignalOf pos).val * KMNO_QUANTITY

/-- The idiom `exchangePosition?.drift || 0` (and `this.position?.drift || 0`
in the second variant): the DRIFT leg of an optional position, 0 if absent. -/
def driftLegOf : Option Position → ℚ
  | some p => p.drift
  | none => 0

/-- The idiom `exchangePosition?.kmno || 0`: the KMNO leg of an optional
position, 0 if absent. -/
def kmnoLegOf : Option Position → ℚ
  | some p => p.kmno
  | none => 0

/-- The position data computed by `getCurrentPositions` in `src/drift.ts`
(lines 279-291) and `SpreadBot.getCurrentSpreadPosition` (lines 1088-1097)
from the venue's per-market base amounts: `null` when both legs are zero,
otherwise the two legs plus a signal inferred from their signs. -/
def getCurrentPositionsData (drift kmno : ℚ) : Option Position :=
  if drift = 0 ∧ kmno = 0 then none
  else
    some ⟨drift, kmno,
      if 0 < drift ∧ kmno < 0 then .long
      else if drift < 0 ∧ 0 < kmno then .short
      else .flat⟩

/-- The sign invariant stated in spec section 3 for a `SpreadPosition`:
LONG means legA>0 and legB<0, SHORT means legA<0 and legB>0, FLAT means
both legs zero. -/
def signInvariant (p : Position) : Prop :=
  match p.signal with
  | .long => 0 < p.drift ∧ p.kmno < 0
  | .short => p.drift < 0 ∧ 0 < p.kmno
  | .flat => p.drift = 0 ∧ p.kmno = 0

/-!
## Execution Engine (`SpreadBot.executeOrder`, `src/bot.ts` lines 1338-1375)

`executeOrder` submits the same market order up to `MAX_RETRIES` times,
returning on the first success and throwing after the last failure.  The
venue's response to attempt `k` (1-indexed) is modelled by an oracle
`att : Nat → Bool`.  The model returns the number of submissions actually
sent and whether the call succeeded (`false` meaning the final attempt
threw). -/

/-- The retry loop of `executeOrder`, on the remaining-attempt count:
attempt `attempt` is submitted; a venue success returns immediately, a
failure on the last attempt throws, otherwise the loop retries (after a
backoff delay, irrelevant here).  Returns the number of submissions made
and whether the call succeeded. -/
def executeOrderGo (att : Nat → Bool) : Nat → Nat → Nat × Bool
  | _, 0 => (0, false)
  | attempt, fuel + 1 =>
    if att attempt then (1, true)
    else if fuel = 0 then (1, false)
    else
      let r := executeOrderGo att (attempt + 1) fuel
      (r.1 + 1, r.2)

/-- Number of submissions made and overall success of one
`executeOrder` call (attempts numbered from 1 up to `MAX_RETRIES`),
given the per-attempt outcomes. -/
def executeOrder (att : Nat → Bool) : Nat × Bool :=
  executeOrderGo att 1 MAX_RETRIES

/-- The order log produced by one `executeOrder` call: one copy of the
order record per submission attempt. -/
def executeOrderLog (rec : Order) (att : Nat → Bool) : List Order × Bool :=
  (List.replicate (executeOrder att).1 rec, (executeOrder att).2)

/-!
## TradingBot (first variant, `src/bot.ts` lines 18-425)

This variant calls `placeOrder` from `src/drift.ts`, which catches every
venue error internally and returns a `Result` that the bot ignores, so no
path in this variant throws after validation; positions are updated
unconditionally once validation passes.  `checkLiquidity` results are
inputs to the model. -/

/-- The DRIFT-leg open order of `openPosition`: LONG when the signal is
positive, full configured quantity, not reduce-only. -/
def openDriftOrder (signal : Signal) : Order :=
  ⟨.DRIFT, if 0 < signal.val then PositionDirection.LONG else .SHORT,
   DRIFT_QUANTITY, false⟩

/-- The KMNO-leg open order of `openPosition`: SHORT when the signal is
positive, full configured quantity, not reduce-only. -/
def openKmnoOrder (signal : Signal) : Order :=
  ⟨.KMNO, if 0 < signal.val then PositionDirection.SHORT else .LONG,
   KMNO_QUANTITY, false⟩

/-- The DRIFT-leg close order of `closePosition`: the reducing direction
for the signed quantity `p.drift`, sized to its absolute value,
reduce-only. -/
def closeDriftOrder (p : Position) : Order :=
  ⟨.DRIFT, if 0 < p.drift then PositionDirection.SHORT else .LONG, |p.drift|, true⟩

/-- The KMNO-leg close order of `closePosition`. -/
def closeKmnoOrder (p : Position) : Order :=
  ⟨.KMNO, if 0 < p.kmno then PositionDirection.SHORT else .LONG, |p.kmno|, true⟩

/-- `TradingBot.openPosition` (lines 215-267): validate both legs via
`validateTrade`; on failure return with no orders and the position
unchanged; on success submit one non-reduce-only order per leg and record
the new internal position. -/
def openPositionTB (signal : Signal) (driftLiquidity kmnoLiquidity : LiquidityCheck)
    (pos : Option Position) : List Order × Option Position :=
  if validateTrade driftLiquidity kmnoLiquidity false then
    ([openDriftOrder signal, openKmnoOrder signal],
     some ⟨signal.val * DRIFT_QUANTITY, -signal.val * KMNO_QUANTITY, signal⟩)
  else ([], pos)

/-- `TradingBot.closePosition` (lines 270-308): for each nonzero leg submit
one reduce-only order in the reducing direction sized to the absolute
quantity, then clear the internal position. -/
def closePositionTB (pos : Option Position) : List Order × Option Position :=
  match pos with
  | none => ([], none)
  | some p =>
    ((if p.drift ≠ 0 then [closeDriftOrder p] else []) ++
     (if p.kmno ≠ 0 then [closeKmnoOrder p] else []), none)

/-- `TradingBot.transitionPosition` (lines 188-212): close the current
position if any, then open the new one unless the new signal is flat.
Nothing in this variant throws, so the catch branch that would set
EMERGENCY is unreachable. -/
def transitionPositionTB (newSignal : Signal) (driftLiquidity kmnoLiquidity : LiquidityCheck)
    (pos : Option Position) : List Order × Option Position :=
  let closed := if pos.isSome then closePositionTB pos else ([], pos)
  if newSignal ≠ .flat then
    let opened := openPositionTB newSignal driftLiquidity kmnoLiquidity closed.2
    (closed.1 ++ opened.1, opened.2)
  else closed

/-- `TradingBot.reconcilePosition` (first variant, lines 321-396): fetch the
venue position (failure returns untouched); if both internal and venue are
absent return; compute the target from the internal signal and the fixed
quantities; within tolerance absorb the venue position; otherwise submit, per
leg beyond tolerance, one reduce-only corrective order sized to the
difference and directed toward the target, then set the internal position to
the target values. -/
def reconcilePositionTB (venueOk : Bool) (venuePos pos : Option Position) :
    List Order × Option Position :=
  if venueOk = false then ([], pos)
  else if pos.isNone && venuePos.isNone then ([], pos)
  else
    let targetSignal := currentSignalOf pos
    let targetDrift := targetDriftOf pos
    let targetKmno := targetKmnoOf pos
    let actualDrift := driftLegOf venuePos
    let actualKmno := kmnoLegOf venuePos
    let driftDiff := |actualDrift - targetDrift|
    let kmnoDiff := |actualKmno - targetKmno|
    if driftDiff ≤ TOLERANCE ∧ kmnoDiff ≤ TOLERANCE then ([], venuePos)
    else
      ((if TOLERANCE < driftDiff then
          [⟨Market.DRIFT, if targetDrift < actualDrift then PositionDirection.SHORT else .LONG,
            driftDiff, true⟩]
        else []) ++
       (if TOLERANCE < kmnoDiff then
          [⟨Market.KMNO, if targetKmno < actualKmno then PositionDirection.SHORT else .LONG,
            kmnoDiff, true⟩]
        else []),
       some ⟨targetDrift, targetKmno, targetSignal⟩)

/-- The per-cycle external inputs of the TradingBot variants: outcomes of
market-data fetch, signal computation, the two liquidity checks, and the
venue position query. -/
structure TBEnv where
  fetchOk : Bool
  signalOk : Bool
  signal : Signal
  driftLiquidity : LiquidityCheck
  kmnoLiquidity : LiquidityCheck
  venueOk : Bool
  venuePos : Option Position
  deriving Repr

/-- The mutable fields of a TradingBot plus the cumulative order log and a
count of `reconcilePosition` invocations (for gating claims). -/
structure TBState where
  state : BotState
  position : Option Position
  cycleCount : Nat
  isCycleRunning : Bool
  reconcileCalls : Nat
  orders : List Order
  deriving Repr

/-- `TradingBot.executeCycle` (first variant, lines 103-185): skip when a
cycle is already running; bump the counter; in EMERGENCY only close and
return; failed fetch degrades; failed signal returns; otherwise transition
when the fresh signal differs from the current one, else reconcile (every
hold cycle); finally the surviving paths set HEALTHY (line 174). -/
def executeCycleTB (env : TBEnv) (s : TBState) : TBState :=
  if s.isCycleRunning then s
  else
    let s0 := { s with cycleCount := s.cycleCount + 1 }
    if s0.state = .EMERGENCY then
      let closed := closePositionTB s0.position
      { s0 with orders := s0.orders ++ closed.1, position := closed.2 }
    else if env.fetchOk = false then { s0 with state := .DEGRADED }
    else if env.signalOk = false then s0
    else if shouldChangePosition (currentSignalOf s0.position) env.signal then
      let moved :=
        transitionPositionTB env.signal env.driftLiquidity env.kmnoLiquidity s0.position
      { s0 with orders := s0.orders ++ moved.1, position := moved.2, state := .HEALTHY }
    else
      let recon := reconcilePositionTB env.venueOk env.venuePos s0.position
      { s0 with orders := s0.orders ++ recon.1, position := recon.2,
                reconcileCalls := s0.reconcileCalls + 1, state := .HEALTHY }

/-- `TradingBot.reconcilePosition` of the second variant (lines 790-832)
with `correctPositions` (lines 834-858): targets are the internal legs
themselves, within tolerance nothing happens (no absorption), otherwise one
reduce-only corrective order per leg beyond tolerance; the internal position
is never updated.  Returns the submitted orders. -/
def reconcilePositionV2 (venueOk : Bool) (venuePos pos : Option Position) : List Order :=
  if venueOk = false then []
  else
    let shouldHaveDrift := driftLegOf pos
    let shouldHaveKmno := kmnoLegOf pos
    let driftDiff := driftLegOf venuePos - shouldHaveDrift
    let kmnoDiff := kmnoLegOf venuePos - shouldHaveKmno
    if |driftDiff| ≤ TOLERANCE ∧ |kmnoDiff| ≤ TOLERANCE then []
    else
      (if TOLERANCE < |driftDiff| then
         [⟨Market.DRIFT, if 0 < driftDiff then PositionDirection.SHORT else .LONG,
           |driftDiff|, true⟩]
       else []) ++
      (if TOLERANCE < |kmnoDiff| then
         [⟨Market.KMNO, if 0 < kmnoDiff then PositionDirection.SHORT else .LONG,
           |kmnoDiff|, true⟩]
       else [])

/-- `TradingBot.executeCycle` of the second variant (lines 527-612): same
skeleton as the first variant, but reconciliation is invoked after the
hold/transition branch exactly when `cycleCount % 10 === 0`
(lines 596-599). -/
def executeCycleV2 (env : TBEnv) (s : TBState) : TBState :=
  if s.isCycleRunning then s
  else
    let s0 := { s with cycleCount := s.cycleCount + 1 }
    if s0.state = .EMERGENCY then
      let (ords, pos') := closePositionTB s0.position
      { s0 with orders := s0.orders ++ ords, position := pos' }
    else if env.fetchOk = false then { s0 with state := .DEGRADED }
    else if env.signalOk = false then s0
    else
      let s1 :=
        if shouldChangePosition (currentSignalOf s0.position) env.signal then
          let (ords, pos') :=
            transitionPositionTB env.signal env.driftLiquidity env.kmnoLiquidity s0.position
          { s0 with orders := s0.orders ++ ords, position := pos' }
        else s0
      let s2 :=
        if s1.cycleCount % 10 = 0 then
          { s1 with orders := s1.orders ++ reconcilePositionV2 env.venueOk env.venuePos s1.position,
                    reconcileCalls := s1.reconcileCalls + 1 }
        else s1
      { s2 with state := .HEALTHY }

/-!
## SpreadBot (`src/bot.ts` lines 888-1751)

This variant submits orders through `executeOrder` (bounded retry,
throwing after the last failed attempt).  PnL bookkeeping and performance
snapshots are pure telemetry and are omitted.  The boolean paired with
each returned state records whether the modelled code path threw. -/

/-- The per-cycle external inputs of the SpreadBot: signal outcome, the
liquidity checks, the venue position snapshot used by close/reconcile
(`getCurrentSpreadPosition`, which returns `null` on its own errors), and
the per-attempt venue outcomes of each possible `executeOrder` call. -/
structure SBEnv where
  signalOk : Bool
  signal : Signal
  driftLiquidity : LiquidityCheck
  kmnoLiquidity : LiquidityCheck
  venuePos : Option Position
  attDriftOpen : Nat → Bool
  attKmnoOpen : Nat → Bool
  attDriftClose : Nat → Bool
  attKmnoClose : Nat → Bool
  attDriftRec : Nat → Bool
  attKmnoRec : Nat → Bool

/-- The mutable fields of a SpreadBot plus the cumulative order log. -/
structure SBState where
  state : BotState
  currentPosition : Option Position
  cycleCount : Nat
  isCycleRunning : Bool
  orders : List Order
  deriving Repr

/-- `SpreadBot.openPosition` (lines 1377-1455): validate both legs (return
silently on failure), then execute the DRIFT leg and the KMNO leg
sequentially with retries; a leg that exhausts retries throws, leaving the
internal position untouched; on success record the new position. -/
def openPositionSB (signal : Signal) (env : SBEnv) (s : SBState) : SBState × Bool :=
  if !(validateLiquiditySB env.driftLiquidity false) ||
     !(validateLiquiditySB env.kmnoLiquidity false) then
    (s, false)
  else
    let driftLog := executeOrderLog (openDriftOrder signal) env.attDriftOpen
    if !driftLog.2 then ({ s with orders := s.orders ++ driftLog.1 }, true)
    else
      let kmnoLog := executeOrderLog (openKmnoOrder signal) env.attKmnoOpen
      if !kmnoLog.2 then
        ({ s with orders := s.orders ++ driftLog.1 ++ kmnoLog.1 }, true)
      else
        ({ s with orders := s.orders ++ driftLog.1 ++ kmnoLog.1,
                  currentPosition :=
                    some ⟨signal.val * DRIFT_QUANTITY, -signal.val * KMNO_QUANTITY, signal⟩ },
         false)

/-- `SpreadBot.closePosition` (lines 1493-1628): read the venue position
(absent means nothing to close, clearing the internal record); otherwise
submit a reduce-only order per leg in the reducing direction sized to the
absolute venue quantity, sequentially with retries (close liquidity is
validated but failures only log, the close is forced); a throwing leg
leaves the internal position untouched; on success clear it. -/
def closePositionSB (env : SBEnv) (s : SBState) : SBState × Bool :=
  match env.venuePos with
  | none => ({ s with currentPosition := none }, false)
  | some position =>
    let driftLog := executeOrderLog (closeDriftOrder position) env.attDriftClose
    if !driftLog.2 then ({ s with orders := s.orders ++ driftLog.1 }, true)
    else
      let kmnoLog := executeOrderLog (closeKmnoOrder position) env.attKmnoClose
      if !kmnoLog.2 then
        ({ s with orders := s.orders ++ driftLog.1 ++ kmnoLog.1 }, true)
      else
        ({ s with orders := s.orders ++ driftLog.1 ++ kmnoLog.1,
                  currentPosition := none }, false)

/-- `SpreadBot.changePosition` (lines 1311-1336): close the current position
if one is recorded, then open the new one unless flat; any throw sets
EMERGENCY and rethrows. -/
def changePositionSB (newSignal : Signal) (env : SBEnv) (s : SBState) : SBState × Bool :=
  let closed :=
    match s.currentPosition with
    | some _ => closePositionSB env s
    | none => (s, false)
  if closed.2 then ({ closed.1 with state := .EMERGENCY }, true)
  else
    let opened :=
      if newSignal ≠ .flat then openPositionSB newSignal env closed.1 else (closed.1, false)
    if opened.2 then ({ opened.1 with state := .EMERGENCY }, true)
    else (opened.1, false)

/-- `SpreadBot.reconcilePosition` (lines 1668-1749): same target and
tolerance logic as the first TradingBot variant, but corrective orders are
submitted through `executeOrder` with `reduceOnly = false` (lines 1708-1714
and 1729-1735); a throwing correction is caught inside and flags EMERGENCY
(the returned boolean), leaving the internal position untouched. -/
def reconcilePositionSB (venuePos : Option Position) (attDrift attKmno : Nat → Bool)
    (pos : Option Position) : List Order × Option Position × Bool :=
  if pos.isNone && venuePos.isNone then ([], pos, false)
  else
    let targetSignal := currentSignalOf pos
    let targetDrift := targetDriftOf pos
    let targetKmno := targetKmnoOf pos
    let actualDrift := driftLegOf venuePos
    let actualKmno := kmnoLegOf venuePos
    let driftDiff := |actualDrift - targetDrift|
    let kmnoDiff := |actualKmno - targetKmno|
    if driftDiff ≤ TOLERANCE ∧ kmnoDiff ≤ TOLERANCE then ([], venuePos, false)
    else
      let driftLog :=
        if TOLERANCE < driftDiff then
          executeOrderLog
            ⟨.DRIFT, if targetDrift < actualDrift then PositionDirection.SHORT else .LONG,
             driftDiff, false⟩ attDrift
        else ([], true)
      if !driftLog.2 then (driftLog.1, pos, true)
      else
        let kmnoLog :=
          if TOLERANCE < kmnoDiff then
            executeOrderLog
              ⟨.KMNO, if targetKmno < actualKmno then PositionDirection.SHORT else .LONG,
               kmnoDiff, false⟩ attKmno
          else ([], true)
        if !kmnoLog.2 then (driftLog.1 ++ kmnoLog.1, pos, true)
        else (driftLog.1 ++ kmnoLog.1, some ⟨targetDrift, targetKmno, targetSignal⟩, false)

/-- `SpreadBot.executeCycle` (lines 1251-1309): skip when a cycle is
running; bump the counter; in EMERGENCY only close (a throwing close keeps
EMERGENCY); a failed signal fetch throws to the cycle catch, which sets
EMERGENCY; otherwise change position when the fresh signal differs (a
throw sets EMERGENCY) or reconcile on hold; surviving paths set HEALTHY
(line 1294) — note this overwrites an EMERGENCY flagged inside
`reconcilePosition`, faithfully to the source. -/
def executeCycleSB (env : SBEnv) (s : SBState) : SBState :=
  if s.isCycleRunning then s
  else
    let s0 := { s with cycleCount := s.cycleCount + 1 }
    if s0.state = .EMERGENCY then
      let closed := closePositionSB env s0
      if closed.2 then { closed.1 with state := .EMERGENCY } else closed.1
    else if env.signalOk = false then { s0 with state := .EMERGENCY }
    else if env.signal ≠ currentSignalOf s0.currentPosition then
      let changed := changePositionSB env.signal env s0
      if changed.2 then { changed.1 with state := .EMERGENCY }
      else { changed.1 with state := .HEALTHY }
    else
      let recon :=
        reconcilePositionSB env.venuePos env.attDriftRec env.attKmnoRec s0.currentPosition
      let s1 := { s0 with orders := s0.orders ++ recon.1, currentPosition := recon.2.1,
                          state := if recon.2.2 then .EMERGENCY else s0.state }
      { s1 with state := .HEALTHY }

/-- Iterated SpreadBot cycles over a list of per-cycle inputs. -/
def runCyclesSB (s : SBState) : List SBEnv → SBState
  | [] => s
  | env :: rest => runCyclesSB (executeCycleSB env s) rest

/-- Iterated first-variant TradingBot cycles over a list of per-cycle
inputs. -/
def runCyclesTB (s : TBState) : List TBEnv → TBState
  | [] => s
  | env :: rest => runCyclesTB (executeCycleTB env s) rest

/-!
## Claim theorems
-/

/-- C10: for every non-empty order-book side (with a non-negative size on
the best level), a liquidity check with `desiredSize = 0` returns
`canFill = true` with `estimatedSlippage = NaN` — the unguarded
`totalValue / totalSize` division evaluates `0 / 0` — in both
`checkLiquidity` variants, and the NaN slippage then passes slippage
validation, since `NaN > bound` is false in JS. -/
theorem checkLiquidity_zero_size_nan (l : BookLevel) (rest : List BookLevel)
    (h : 0 ≤ l.size) :
    checkLiquidity (l :: rest) 0 = ⟨true, .nan⟩ ∧
    checkLiquiditySB (l :: rest) 0 = ⟨true, .nan⟩ ∧
    validateSlippage .nan false = true ∧
    validateSlippage .nan true = true ∧
    validateLiquidity ⟨true, .nan⟩ false = true ∧
    validateLiquiditySB ⟨true, .nan⟩ false = true := by
  have hw : bookWalk 0 (l :: rest) (0, 0) = (0, 0) := by
    simp [bookWalk, min_eq_right h]
  have hw2 : bookWalkSB 0 (l :: rest) (0, 0) = (0, 0) := by
    simp [bookWalkSB]
  refine ⟨?_, ?_, by decide, by decide, by decide, by decide⟩
  · simp [checkLiquidity, hw, slippageOf, ExtNum.div, -Prod.mk_zero_zero]
  · simp [checkLiquiditySB, hw2, slippageOfSB, ExtNum.div, -Prod.mk_zero_zero]

/-- C10 witness: a concrete one-level book. -/
theorem checkLiquidity_zero_size_nan_witness :
    checkLiquidity [⟨1, 5⟩] 0 = ⟨true, .nan⟩ ∧
    checkLiquiditySB [⟨1, 5⟩] 0 = ⟨true, .nan⟩ ∧
    validateSlippage .nan false = true ∧
    validateSlippage .nan true = true ∧
    validateLiquidity ⟨true, .nan⟩ false = true ∧
    validateLiquiditySB ⟨true, .nan⟩ false = true :=
  checkLiquidity_zero_size_nan ⟨1, 5⟩ [] (by norm_num)

/-- C2 counterexample: a venue snapshot with a DRIFT leg of 5 and a KMNO
leg of 0 is reconstructed as a recorded position with `signal = FLAT`
whose DRIFT leg is nonzero, violating the sign invariant
(FLAT requires both legs zero). -/
theorem reconstruct_sign_invariant_cex :
    getCurrentPositionsData 5 0 = some ⟨5, 0, .flat⟩ ∧
    ¬ signInvariant ⟨5, 0, .flat⟩ := by
  constructor
  · norm_num [getCurrentPositionsData]
  · norm_num [signInvariant]

/-- C2 amended: a position recorded by `openPosition` always satisfies the
sign invariant, and a position reconstructed from the venue satisfies its
LONG and SHORT clauses — but reconstruction can record `signal = FLAT`
with nonzero legs, so the FLAT clause holds only for opened positions. -/
theorem sign_invariant_amended :
    (∀ (signal : Signal) (dl kl : LiquidityCheck) (pos : Option Position),
      validateTrade dl kl false = true →
      ∃ p, (openPositionTB signal dl kl pos).2 = some p ∧ signInvariant p) ∧
    (∀ (drift kmno : ℚ) (p : Position),
      getCurrentPositionsData drift kmno = some p →
      (p.signal = .long → 0 < p.drift ∧ p.kmno < 0) ∧
      (p.signal = .short → p.drift < 0 ∧ 0 < p.kmno)) := by
  constructor
  · intro signal dl kl pos hv
    refine ⟨⟨signal.val * DRIFT_QUANTITY, -signal.val * KMNO_QUANTITY, signal⟩, ?_, ?_⟩
    · simp [openPositionTB, hv]
    · cases signal <;>
        norm_num [signInvariant, Signal.val, DRIFT_QUANTITY, KMNO_QUANTITY]
  · intro drift kmno p hp
    unfold getCurrentPositionsData at hp
    by_cases h0 : drift = 0 ∧ kmno = 0
    · rw [if_pos h0] at hp
      exact absurd hp (by simp)
    · rw [if_neg h0] at hp
      rw [Option.some.injEq] at hp
      subst hp
      dsimp only
      constructor
      · intro hsig
        by_cases h1 : 0 < drift ∧ kmno < 0
        · exact h1
        · exfalso
          by_cases h2 : drift < 0 ∧ 0 < kmno
          · rw [if_neg h1, if_pos h2] at hsig
            cases hsig
          · rw [if_neg h1, if_neg h2] at hsig
            cases hsig
      · intro hsig
        by_cases h2 : drift < 0 ∧ 0 < kmno
        · exact h2
        · exfalso
          by_cases h1 : 0 < drift ∧ kmno < 0
          · rw [if_pos h1] at hsig
            cases hsig
          · rw [if_neg h1, if_neg h2] at hsig
            cases hsig

/-- C2 amended witness: opening a LONG position at passing liquidity, and
reconstructing from a venue snapshot of a LONG spread. -/
theorem sign_invariant_amended_witness :
    (∃ p, (openPositionTB .long ⟨true, .fin 0⟩ ⟨true, .fin 0⟩ none).2 = some p ∧
      signInvariant p) ∧
    ((⟨10, -100, .long⟩ : Position).signal = .long →
      0 < (⟨10, -100, .long⟩ : Position).drift ∧ (⟨10, -100, .long⟩ : Position).kmno < 0) :=
  ⟨sign_invariant_amended.1 .long ⟨true, .fin 0⟩ ⟨true, .fin 0⟩ none
     (by norm_num [validateTrade, validateLiquidity, validateSlippage, ExtNum.gt,
       MAX_SLIPPAGE_BPS]),
   (sign_invariant_amended.2 10 (-100) ⟨10, -100, .long⟩ (by norm_num [getCurrentPositionsData])).1⟩

/-! Helper lemmas about the execution engine and the reconcile variants,
shared by several claim theorems. -/

/-- A first-attempt success submits exactly one order. -/
theorem executeOrder_first_attempt (att : Nat → Bool) (h : att 1 = true) :
    executeOrder att = (1, true) := by
  simp [executeOrder, MAX_RETRIES, executeOrderGo, h]

/-- Three failed attempts exhaust the retries: three submissions, failure. -/
theorem executeOrder_all_fail (att : Nat → Bool)
    (h1 : att 1 = false) (h2 : att 2 = false) (h3 : att 3 = false) :
    executeOrder att = (MAX_RETRIES, false) := by
  simp [executeOrder, MAX_RETRIES, executeOrderGo, h1, h2, h3]

/-- Within tolerance (or with nothing on either side), the first-variant
reconcile issues no orders and adopts the venue position. -/
theorem reconcileTB_tolerance (venuePos pos : Option Position)
    (hd : |driftLegOf venuePos - targetDriftOf pos| ≤ TOLERANCE)
    (hk : |kmnoLegOf venuePos - targetKmnoOf pos| ≤ TOLERANCE) :
    reconcilePositionTB true venuePos pos = ([], venuePos) := by
  simp only [reconcilePositionTB]
  by_cases hb : (pos.isNone && venuePos.isNone) = true
  · have hp : pos = none := by
      cases pos <;> simp_all
    have hv : venuePos = none := by
      cases venuePos <;> simp_all
    simp [hb, hp, hv]
  · simp only [Bool.not_eq_true] at hb
    simp [hb, if_pos (And.intro hd hk)]

/-- Within tolerance, the SpreadBot reconcile issues no orders, adopts the
venue position, and flags no error. -/
theorem reconcileSB_tolerance (venuePos pos : Option Position) (aD aK : Nat → Bool)
    (hd : |driftLegOf venuePos - targetDriftOf pos| ≤ TOLERANCE)
    (hk : |kmnoLegOf venuePos - targetKmnoOf pos| ≤ TOLERANCE) :
    reconcilePositionSB venuePos aD aK pos = ([], venuePos, false) := by
  simp only [reconcilePositionSB]
  by_cases hb : (pos.isNone && venuePos.isNone) = true
  · have hp : pos = none := by
      cases pos <;> simp_all
    have hv : venuePos = none := by
      cases venuePos <;> simp_all
    simp [hb, hp, hv]
  · simp only [Bool.not_eq_true] at hb
    simp [hb, if_pos (And.intro hd hk)]

/-- When not both legs are absent and not both diffs are within tolerance,
both reconcile guards are passed. -/
theorem reconcile_guard_false (venuePos pos : Option Position)
    (hAny : ¬(|driftLegOf venuePos - targetDriftOf pos| ≤ TOLERANCE ∧
              |kmnoLegOf venuePos - targetKmnoOf pos| ≤ TOLERANCE)) :
    (pos.isNone && venuePos.isNone) = false := by
  cases pos with
  | some p => rfl
  | none =>
    cases venuePos with
    | some v => rfl
    | none =>
      exfalso
      apply hAny
      constructor <;>
        norm_num [driftLegOf, kmnoLegOf, targetDriftOf, targetKmnoOf,
          currentSignalOf, Signal.val, TOLERANCE]

/-- Beyond tolerance, the first-variant reconcile issues one reduce-only
corrective order per leg beyond tolerance — direction SHORT exactly when the
actual quantity exceeds the target, sized to the absolute difference — and
replaces the internal position by the target. -/
theorem reconcileTB_corrections (venuePos pos : Option Position)
    (hAny : ¬(|driftLegOf venuePos - targetDriftOf pos| ≤ TOLERANCE ∧
              |kmnoLegOf venuePos - targetKmnoOf pos| ≤ TOLERANCE)) :
    reconcilePositionTB true venuePos pos =
      ((if TOLERANCE < |driftLegOf venuePos - targetDriftOf pos| then
          [⟨.DRIFT,
            if targetDriftOf pos < driftLegOf venuePos then PositionDirection.SHORT else .LONG,
            |driftLegOf venuePos - targetDriftOf pos|, true⟩]
        else []) ++
       (if TOLERANCE < |kmnoLegOf venuePos - targetKmnoOf pos| then
          [⟨.KMNO,
            if targetKmnoOf pos < kmnoLegOf venuePos then PositionDirection.SHORT else .LONG,
            |kmnoLegOf venuePos - targetKmnoOf pos|, true⟩]
        else []),
       some ⟨targetDriftOf pos, targetKmnoOf pos, currentSignalOf pos⟩) := by
  simp only [reconcilePositionTB]
  rw [reconcile_guard_false venuePos pos hAny]
  simp [if_neg hAny]

/-- Beyond tolerance, the SpreadBot reconcile (with first-attempt success on
each corrective order) issues one non-reduce-only corrective order per leg
beyond tolerance, sets the internal position to the target, and flags no
error. -/
theorem reconcileSB_corrections (venuePos pos : Option Position) (aD aK : Nat → Bool)
    (hAny : ¬(|driftLegOf venuePos - targetDriftOf pos| ≤ TOLERANCE ∧
              |kmnoLegOf venuePos - targetKmnoOf pos| ≤ TOLERANCE))
    (haD : aD 1 = true) (haK : aK 1 = true) :
    reconcilePositionSB venuePos aD aK pos =
      ((if TOLERANCE < |driftLegOf venuePos - targetDriftOf pos| then
          [⟨.DRIFT,
            if targetDriftOf pos < driftLegOf venuePos then PositionDirection.SHORT else .LONG,
            |driftLegOf venuePos - targetDriftOf pos|, false⟩]
        else []) ++
       (if TOLERANCE < |kmnoLegOf venuePos - targetKmnoOf pos| then
          [⟨.KMNO,
            if targetKmnoOf pos < kmnoLegOf venuePos then PositionDirection.SHORT else .LONG,
            |kmnoLegOf venuePos - targetKmnoOf pos|, false⟩]
        else []),
       some ⟨targetDriftOf pos, targetKmnoOf pos, currentSignalOf pos⟩, false) := by
  simp only [reconcilePositionSB]
  rw [reconcile_guard_false venuePos pos hAny]
  simp only [Bool.false_eq_true, if_false, if_neg hAny]
  by_cases hD : TOLERANCE < |driftLegOf venuePos - targetDriftOf pos| <;>
    by_cases hK : TOLERANCE < |kmnoLegOf venuePos - targetKmnoOf pos|
  · simp [if_pos hD, if_pos hK, executeOrderLog,
      executeOrder_first_attempt aD haD, executeOrder_first_attempt aK haK]
  · simp [if_pos hD, if_neg hK, executeOrderLog,
      executeOrder_first_attempt aD haD]
  · simp [if_neg hD, if_pos hK, executeOrderLog,
      executeOrder_first_attempt aK haK]
  · exact absurd ⟨le_of_not_lt hD, le_of_not_lt hK⟩ hAny

/-- C3: whenever the venue query succeeds and both per-leg differences are
within the 0.1 tolerance (whatever their signs), reconciliation issues no
corrective order and replaces the internal position by the venue-reported
one — in both the first TradingBot variant and the SpreadBot. -/
theorem reconcile_within_tolerance (venuePos pos : Option Position)
    (hd : |driftLegOf venuePos - targetDriftOf pos| ≤ TOLERANCE)
    (hk : |kmnoLegOf venuePos - targetKmnoOf pos| ≤ TOLERANCE) :
    reconcilePositionTB true venuePos pos = ([], venuePos) ∧
    ∀ aD aK, reconcilePositionSB venuePos aD aK pos = ([], venuePos, false) :=
  ⟨reconcileTB_tolerance venuePos pos hd hk,
   fun aD aK => reconcileSB_tolerance venuePos pos aD aK hd hk⟩

/-- C3 witness: a LONG internal position with a matching venue position. -/
theorem reconcile_within_tolerance_witness :
    reconcilePositionTB true (some ⟨10, -100, .long⟩) (some ⟨10, -100, .long⟩)
      = ([], some ⟨10, -100, .long⟩) ∧
    ∀ aD aK, reconcilePositionSB (some ⟨10, -100, .long⟩) aD aK (some ⟨10, -100, .long⟩)
      = ([], some ⟨10, -100, .long⟩, false) :=
  reconcile_within_tolerance (some ⟨10, -100, .long⟩) (some ⟨10, -100, .long⟩)
    (by norm_num [driftLegOf, targetDriftOf, currentSignalOf, Signal.val,
      DRIFT_QUANTITY, TOLERANCE])
    (by norm_num [kmnoLegOf, targetKmnoOf, currentSignalOf, Signal.val,
      KMNO_QUANTITY, TOLERANCE])

/-- C4 counterexample: internal LONG target (drift 10), venue reports
drift 20 — the correction is a reduction (sell 10 against a long 20) — yet
the SpreadBot reconcile submits it with `reduceOnly = false`, refuting
"marked reduce-only when the correction is a reduction". -/
theorem reconcile_corrections_cex :
    reconcilePositionSB (some ⟨20, -100, .long⟩) (fun _ => true) (fun _ => true)
      (some ⟨10, -100, .long⟩)
      = ([⟨.DRIFT, .SHORT, 10, false⟩], some ⟨10, -100, .long⟩, false) ∧
    (⟨.DRIFT, .SHORT, 10, false⟩ : Order).reduceOnly = false := by
  refine ⟨?_, rfl⟩
  norm_num [reconcilePositionSB, currentSignalOf, targetDriftOf, targetKmnoOf,
    driftLegOf, kmnoLegOf, TOLERANCE, DRIFT_QUANTITY, KMNO_QUANTITY, Signal.val,
    executeOrderLog, executeOrder, executeOrderGo, MAX_RETRIES, abs_le, lt_abs,
    abs_eq_max_neg, max_def]

/-- C4 amended: beyond tolerance, each leg beyond tolerance gets exactly one
corrective order — SHORT when the actual exceeds the target, LONG when it
falls short, sized exactly to the absolute difference — and afterwards the
internal position is set to the target values without re-querying the
venue; but the corrective orders are always reduce-only in the first
TradingBot variant and never reduce-only in the SpreadBot, regardless of
whether the correction is a reduction. -/
theorem reconcile_corrections_amended (venuePos pos : Option Position)
    (aD aK : Nat → Bool)
    (hAny : ¬(|driftLegOf venuePos - targetDriftOf pos| ≤ TOLERANCE ∧
              |kmnoLegOf venuePos - targetKmnoOf pos| ≤ TOLERANCE))
    (haD : aD 1 = true) (haK : aK 1 = true) :
    reconcilePositionTB true venuePos pos =
      ((if TOLERANCE < |driftLegOf venuePos - targetDriftOf pos| then
          [⟨.DRIFT,
            if targetDriftOf pos < driftLegOf venuePos then PositionDirection.SHORT else .LONG,
            |driftLegOf venuePos - targetDriftOf pos|, true⟩]
        else []) ++
       (if TOLERANCE < |kmnoLegOf venuePos - targetKmnoOf pos| then
          [⟨.KMNO,
            if targetKmnoOf pos < kmnoLegOf venuePos then PositionDirection.SHORT else .LONG,
            |kmnoLegOf venuePos - targetKmnoOf pos|, true⟩]
        else []),
       some ⟨targetDriftOf pos, targetKmnoOf pos, currentSignalOf pos⟩) ∧
    reconcilePositionSB venuePos aD aK pos =
      ((if TOLERANCE < |driftLegOf venuePos - targetDriftOf pos| then
          [⟨.DRIFT,
            if targetDriftOf pos < driftLegOf venuePos then PositionDirection.SHORT else .LONG,
            |driftLegOf venuePos - targetDriftOf pos|, false⟩]
        else []) ++
       (if TOLERANCE < |kmnoLegOf venuePos - targetKmnoOf pos| then
          [⟨.KMNO,
            if targetKmnoOf pos < kmnoLegOf venuePos then PositionDirection.SHORT else .LONG,
            |kmnoLegOf venuePos - targetKmnoOf pos|, false⟩]
        else []),
       some ⟨targetDriftOf pos, targetKmnoOf pos, currentSignalOf pos⟩, false) :=
  ⟨reconcileTB_corrections venuePos pos hAny,
   reconcileSB_corrections venuePos pos aD aK hAny haD haK⟩

/-- C4 amended witness: LONG target, venue reports drift 25 and kmno -115;
afterwards the internal position is the target. -/
theorem reconcile_corrections_amended_witness :
    (reconcilePositionTB true (some ⟨25, -115, .long⟩) (some ⟨10, -100, .long⟩)).2
      = some ⟨targetDriftOf (some ⟨10, -100, .long⟩),
              targetKmnoOf (some ⟨10, -100, .long⟩),
              currentSignalOf (some ⟨10, -100, .long⟩)⟩ := by
  rw [(reconcile_corrections_amended (some ⟨25, -115, .long⟩) (some ⟨10, -100, .long⟩)
        (fun _ => true) (fun _ => true)
        (by norm_num [driftLegOf, kmnoLegOf, targetDriftOf, targetKmnoOf,
          currentSignalOf, Signal.val, DRIFT_QUANTITY, KMNO_QUANTITY, TOLERANCE, abs_le])
        rfl rfl).1]

/-- C5 counterexample: with no internal position and the venue reporting a
dust spread `{drift: 0.08, kmno: -0.08}` (reconstructed with implied signal
LONG), a first reconcile issues no orders and absorbs the dust position —
and a second reconcile against the unchanged venue position then issues
corrective orders, because the absorbed signal changed the target from
flat to the full LONG spread.  Reconciliation is not idempotent. -/
theorem reconcile_idempotent_cex :
    getCurrentPositionsData (2/25) (-2/25) = some ⟨2/25, -2/25, .long⟩ ∧
    reconcilePositionTB true (some ⟨2/25, -2/25, .long⟩) none
      = ([], some ⟨2/25, -2/25, .long⟩) ∧
    (reconcilePositionTB true (some ⟨2/25, -2/25, .long⟩)
      (some ⟨2/25, -2/25, .long⟩)).1 ≠ [] := by
  refine ⟨by norm_num [getCurrentPositionsData], ?_, ?_⟩
  · norm_num [reconcilePositionTB, currentSignalOf, targetDriftOf, targetKmnoOf,
      driftLegOf, kmnoLegOf, TOLERANCE, DRIFT_QUANTITY, KMNO_QUANTITY, Signal.val, abs_le]
  · norm_num [reconcilePositionTB, currentSignalOf, targetDriftOf, targetKmnoOf,
      driftLegOf, kmnoLegOf, TOLERANCE, DRIFT_QUANTITY, KMNO_QUANTITY, Signal.val,
      abs_le, lt_abs, List.cons_ne_nil]

/-- The target legs depend only on the implied signal. -/
theorem target_of_signal_eq (a b : Option Position)
    (h : currentSignalOf a = currentSignalOf b) :
    targetDriftOf a = targetDriftOf b ∧ targetKmnoOf a = targetKmnoOf b := by
  constructor <;> simp [targetDriftOf, targetKmnoOf, h]

/-- Every `executeOrder` call submits at least one order. -/
theorem executeOrder_pos (att : Nat → Bool) : 1 ≤ (executeOrder att).1 := by
  by_cases h1 : att 1 = true <;> by_cases h2 : att 2 = true <;>
    by_cases h3 : att 3 = true <;>
      simp [executeOrder, MAX_RETRIES, executeOrderGo, h1, h2, h3]

/-- A SpreadBot reconcile beyond tolerance that did not flag an error
submitted at least one corrective order and set the internal position to
the target. -/
theorem reconcileSB_noerror_shape (venuePos pos : Option Position) (aD aK : Nat → Bool)
    (hAny : ¬(|driftLegOf venuePos - targetDriftOf pos| ≤ TOLERANCE ∧
              |kmnoLegOf venuePos - targetKmnoOf pos| ≤ TOLERANCE))
    (hflag : (reconcilePositionSB venuePos aD aK pos).2.2 = false) :
    (reconcilePositionSB venuePos aD aK pos).1 ≠ [] ∧
    (reconcilePositionSB venuePos aD aK pos).2.1
      = some ⟨targetDriftOf pos, targetKmnoOf pos, currentSignalOf pos⟩ := by
  have hg := reconcile_guard_false venuePos pos hAny
  have hDpos := executeOrder_pos aD
  have hKpos := executeOrder_pos aK
  by_cases hD : TOLERANCE < |driftLegOf venuePos - targetDriftOf pos|
  · by_cases hok1 : (executeOrder aD).2 = true
    · by_cases hK : TOLERANCE < |kmnoLegOf venuePos - targetKmnoOf pos|
      · by_cases hok2 : (executeOrder aK).2 = true
        · have he : reconcilePositionSB venuePos aD aK pos =
              (List.replicate (executeOrder aD).1
                 ⟨.DRIFT,
                  if targetDriftOf pos < driftLegOf venuePos then PositionDirection.SHORT
                  else .LONG,
                  |driftLegOf venuePos - targetDriftOf pos|, false⟩ ++
               List.replicate (executeOrder aK).1
                 ⟨.KMNO,
                  if targetKmnoOf pos < kmnoLegOf venuePos then PositionDirection.SHORT
                  else .LONG,
                  |kmnoLegOf venuePos - targetKmnoOf pos|, false⟩,
               some ⟨targetDriftOf pos, targetKmnoOf pos, currentSignalOf pos⟩, false) := by
            simp only [reconcilePositionSB]
            rw [hg]
            simp [if_neg hAny, hD, hK, executeOrderLog, hok1, hok2]
          rw [he]
          refine ⟨?_, rfl⟩
          intro h
          have hlen := congrArg List.length h
          simp [List.length_append, List.length_replicate] at hlen
          omega
        · exfalso
          simp only [Bool.not_eq_true] at hok2
          have he : (reconcilePositionSB venuePos aD aK pos).2.2 = true := by
            simp only [reconcilePositionSB]
            rw [hg]
            simp [if_neg hAny, hD, hK, executeOrderLog, hok1, hok2]
          rw [he] at hflag
          exact absurd hflag (by decide)
      · have he : reconcilePositionSB venuePos aD aK pos =
            (List.replicate (executeOrder aD).1
               ⟨.DRIFT,
                if targetDriftOf pos < driftLegOf venuePos then PositionDirection.SHORT
                else .LONG,
                |driftLegOf venuePos - targetDriftOf pos|, false⟩,
             some ⟨targetDriftOf pos, targetKmnoOf pos, currentSignalOf pos⟩, false) := by
          simp only [reconcilePositionSB]
          rw [hg]
          simp [if_neg hAny, hD, hK, executeOrderLog, hok1]
        rw [he]
        refine ⟨?_, rfl⟩
        intro h
        have hlen := congrArg List.length h
        simp [List.length_replicate] at hlen
        omega
    · exfalso
      simp only [Bool.not_eq_true] at hok1
      have he : (reconcilePositionSB venuePos aD aK pos).2.2 = true := by
        simp only [reconcilePositionSB]
        rw [hg]
        simp [if_neg hAny, hD, executeOrderLog, hok1]
      rw [he] at hflag
      exact absurd hflag (by decide)
  · have hK : TOLERANCE < |kmnoLegOf venuePos - targetKmnoOf pos| := by
      rcases not_and_or.mp hAny with h | h
      · exact absurd (not_lt.mp hD) h
      · exact not_le.mp h
    by_cases hok2 : (executeOrder aK).2 = true
    · have he : reconcilePositionSB venuePos aD aK pos =
          (List.replicate (executeOrder aK).1
             ⟨.KMNO,
              if targetKmnoOf pos < kmnoLegOf venuePos then PositionDirection.SHORT
              else .LONG,
              |kmnoLegOf venuePos - targetKmnoOf pos|, false⟩,
           some ⟨targetDriftOf pos, targetKmnoOf pos, currentSignalOf pos⟩, false) := by
        simp only [reconcilePositionSB]
        rw [hg]
        simp [if_neg hAny, hD, hK, executeOrderLog, hok2]
      rw [he]
      refine ⟨?_, rfl⟩
      intro h
      have hlen := congrArg List.length h
      simp [List.length_replicate] at hlen
      omega
    · exfalso
      simp only [Bool.not_eq_true] at hok2
      have he : (reconcilePositionSB venuePos aD aK pos).2.2 = true := by
        simp only [reconcilePositionSB]
        rw [hg]
        simp [if_neg hAny, hD, hK, executeOrderLog, hok2]
      rw [he] at hflag
      exact absurd hflag (by decide)

/-- When the venue reports exactly the target legs, both reconcile diffs
against that target are zero, hence within tolerance. -/
theorem venue_of_target_diffs (pos : Option Position) :
    |driftLegOf (getCurrentPositionsData (targetDriftOf pos) (targetKmnoOf pos)) -
      targetDriftOf pos| ≤ TOLERANCE ∧
    |kmnoLegOf (getCurrentPositionsData (targetDriftOf pos) (targetKmnoOf pos)) -
      targetKmnoOf pos| ≤ TOLERANCE := by
  by_cases hz : targetDriftOf pos = 0 ∧ targetKmnoOf pos = 0
  · have hv : getCurrentPositionsData (targetDriftOf pos) (targetKmnoOf pos) = none := by
      simp [getCurrentPositionsData, hz]
    rw [hv]
    constructor <;> norm_num [driftLegOf, kmnoLegOf, hz.1, hz.2, TOLERANCE]
  · have hv : getCurrentPositionsData (targetDriftOf pos) (targetKmnoOf pos)
        = some ⟨targetDriftOf pos, targetKmnoOf pos,
            if 0 < targetDriftOf pos ∧ targetKmnoOf pos < 0 then .long
            else if targetDriftOf pos < 0 ∧ 0 < targetKmnoOf pos then .short
            else .flat⟩ := by
      simp [getCurrentPositionsData, hz]
    rw [hv]
    constructor <;> norm_num [driftLegOf, kmnoLegOf, TOLERANCE]

/-- C5 amended: running reconcile twice issues no orders on the second
call, provided that either (a) the first call issued no orders and the
position it adopted implies the same target signal as before (the venue
unchanged in between), or (b) the first call issued corrective orders
(without throwing, in the SpreadBot) and the venue thereafter reports
exactly the corrected target — in both the first TradingBot variant and
the SpreadBot.  Without the signal proviso in (a) a second call can issue
orders (see the dust counterexample). -/
theorem reconcile_idempotent_amended (venuePos pos : Option Position) :
    (∀ p1, reconcilePositionTB true venuePos pos = ([], p1) →
      currentSignalOf p1 = currentSignalOf pos →
      (reconcilePositionTB true venuePos p1).1 = []) ∧
    (∀ ords p1, reconcilePositionTB true venuePos pos = (ords, p1) → ords ≠ [] →
      (reconcilePositionTB true
        (getCurrentPositionsData (targetDriftOf pos) (targetKmnoOf pos)) p1).1 = []) ∧
    (∀ (aD aK : Nat → Bool) p1,
      reconcilePositionSB venuePos aD aK pos = ([], p1, false) →
      currentSignalOf p1 = currentSignalOf pos →
      ∀ (aD' aK' : Nat → Bool), (reconcilePositionSB venuePos aD' aK' p1).1 = []) ∧
    (∀ (aD aK : Nat → Bool) ords p1,
      reconcilePositionSB venuePos aD aK pos = (ords, p1, false) → ords ≠ [] →
      ∀ (aD' aK' : Nat → Bool),
        (reconcilePositionSB
          (getCurrentPositionsData (targetDriftOf pos) (targetKmnoOf pos))
          aD' aK' p1).1 = []) := by
  by_cases htol : |driftLegOf venuePos - targetDriftOf pos| ≤ TOLERANCE ∧
      |kmnoLegOf venuePos - targetKmnoOf pos| ≤ TOLERANCE
  · have h1 := reconcileTB_tolerance venuePos pos htol.1 htol.2
    refine ⟨?_, ?_, ?_, ?_⟩
    · intro p1 hcall hsig
      rw [h1] at hcall
      have hp1 : p1 = venuePos := by
        have := congrArg Prod.snd hcall
        simpa using this.symm
      rw [hp1] at hsig ⊢
      obtain ⟨hdT, hkT⟩ := target_of_signal_eq venuePos pos hsig
      rw [reconcileTB_tolerance venuePos venuePos
        (by rw [hdT]; exact htol.1) (by rw [hkT]; exact htol.2)]
    · intro ords p1 hcall hne
      rw [h1] at hcall
      have : ords = [] := by
        have := congrArg Prod.fst hcall
        simpa using this.symm
      exact absurd this hne
    · intro aD aK p1 hcall hsig aD' aK'
      rw [reconcileSB_tolerance venuePos pos aD aK htol.1 htol.2] at hcall
      have hp1 : p1 = venuePos := by
        have := congrArg
          (fun (t : List Order × Option Position × Bool) => t.2.1) hcall
        simpa using this.symm
      rw [hp1] at hsig ⊢
      obtain ⟨hdT, hkT⟩ := target_of_signal_eq venuePos pos hsig
      rw [reconcileSB_tolerance venuePos venuePos aD' aK'
        (by rw [hdT]; exact htol.1) (by rw [hkT]; exact htol.2)]
    · intro aD aK ords p1 hcall hne aD' aK'
      rw [reconcileSB_tolerance venuePos pos aD aK htol.1 htol.2] at hcall
      have : ords = [] := by
        have := congrArg
          (fun (t : List Order × Option Position × Bool) => t.1) hcall
        simpa using this.symm
      exact absurd this hne
  · have h1 := reconcileTB_corrections venuePos pos htol
    refine ⟨?_, ?_, ?_, ?_⟩
    · intro p1 hcall hsig
      rw [h1] at hcall
      exfalso
      have hfst := congrArg Prod.fst hcall
      rcases not_and_or.mp htol with hD | hK
      · rw [not_le] at hD
        simp [if_pos hD] at hfst
      · rw [not_le] at hK
        simp [if_pos hK] at hfst
    · intro ords p1 hcall hne
      rw [h1] at hcall
      have hp1 : p1 = some ⟨targetDriftOf pos, targetKmnoOf pos, currentSignalOf pos⟩ := by
        have := congrArg Prod.snd hcall
        simpa using this.symm
      subst hp1
      have hsig2 : currentSignalOf
          (some ⟨targetDriftOf pos, targetKmnoOf pos, currentSignalOf pos⟩)
          = currentSignalOf pos := rfl
      have htd2 : targetDriftOf
          (some ⟨targetDriftOf pos, targetKmnoOf pos, currentSignalOf pos⟩)
          = targetDriftOf pos := rfl
      have htk2 : targetKmnoOf
          (some ⟨targetDriftOf pos, targetKmnoOf pos, currentSignalOf pos⟩)
          = targetKmnoOf pos := rfl
      by_cases hz : targetDriftOf pos = 0 ∧ targetKmnoOf pos = 0
      · have hv2 : getCurrentPositionsData (targetDriftOf pos) (targetKmnoOf pos) = none := by
          simp [getCurrentPositionsData, hz]
        rw [hv2]
        rw [reconcileTB_tolerance none _ (by
              rw [htd2]
              norm_num [driftLegOf, hz.1, TOLERANCE])
            (by
              rw [htk2]
              norm_num [kmnoLegOf, hz.2, TOLERANCE])]
      · have hv2 : getCurrentPositionsData (targetDriftOf pos) (targetKmnoOf pos)
            = some ⟨targetDriftOf pos, targetKmnoOf pos,
                if 0 < targetDriftOf pos ∧ targetKmnoOf pos < 0 then .long
                else if targetDriftOf pos < 0 ∧ 0 < targetKmnoOf pos then .short
                else .flat⟩ := by
          simp [getCurrentPositionsData, hz]
        rw [hv2]
        rw [reconcileTB_tolerance _ _ (by
              rw [htd2]
              norm_num [driftLegOf, TOLERANCE])
            (by
              rw [htk2]
              norm_num [kmnoLegOf, TOLERANCE])]
    · intro aD aK p1 hcall hsig aD' aK'
      exfalso
      have hflag : (reconcilePositionSB venuePos aD aK pos).2.2 = false := by
        rw [hcall]
      have hsh := reconcileSB_noerror_shape venuePos pos aD aK htol hflag
      exact hsh.1 (by rw [hcall])
    · intro aD aK ords p1 hcall hne aD' aK'
      have hflag : (reconcilePositionSB venuePos aD aK pos).2.2 = false := by
        rw [hcall]
      have hsh := reconcileSB_noerror_shape venuePos pos aD aK htol hflag
      have hp1 : p1 = some ⟨targetDriftOf pos, targetKmnoOf pos, currentSignalOf pos⟩ := by
        have h2 := hsh.2
        rw [hcall] at h2
        simpa using h2
      subst hp1
      rw [reconcileSB_tolerance
        (getCurrentPositionsData (targetDriftOf pos) (targetKmnoOf pos))
        (some ⟨targetDriftOf pos, targetKmnoOf pos, currentSignalOf pos⟩) aD' aK'
        (venue_of_target_diffs pos).1 (venue_of_target_diffs pos).2]

/-- C5 amended witness: a LONG internal position with matching venue; in
both variants the first call issues no orders and the second call issues
none either. -/
theorem reconcile_idempotent_amended_witness :
    (reconcilePositionTB true (some ⟨10, -100, .long⟩) (some ⟨10, -100, .long⟩)).1 = [] ∧
    ∀ (aD' aK' : Nat → Bool),
      (reconcilePositionSB (some ⟨10, -100, .long⟩) aD' aK'
        (some ⟨10, -100, .long⟩)).1 = [] :=
  ⟨(reconcile_idempotent_amended (some ⟨10, -100, .long⟩) (some ⟨10, -100, .long⟩)).1
     (some ⟨10, -100, .long⟩)
     (by norm_num [reconcilePositionTB, currentSignalOf, targetDriftOf, targetKmnoOf,
       driftLegOf, kmnoLegOf, TOLERANCE, DRIFT_QUANTITY, KMNO_QUANTITY, Signal.val, abs_le])
     rfl,
   fun aD' aK' =>
     (reconcile_idempotent_amended (some ⟨10, -100, .long⟩) (some ⟨10, -100, .long⟩)).2.2.1
       (fun _ => true) (fun _ => true) (some ⟨10, -100, .long⟩)
       (by norm_num [reconcilePositionSB, currentSignalOf, targetDriftOf, targetKmnoOf,
         driftLegOf, kmnoLegOf, TOLERANCE, DRIFT_QUANTITY, KMNO_QUANTITY, Signal.val, abs_le])
       rfl aD' aK'⟩

/-- C6 counterexample: in the first TradingBot variant, a hold cycle
(fresh signal FLAT matching the flat internal position) with ordinal 1 —
not a multiple of 10 — still invokes the Reconciliation Engine, refuting
the mod-10 gating for that variant. -/
theorem reconcile_gating_cex :
    shouldChangePosition (currentSignalOf none) Signal.flat = false ∧
    (executeCycleTB ⟨true, true, .flat, ⟨true, .nan⟩, ⟨true, .nan⟩, true, none⟩
      ⟨.HEALTHY, none, 0, false, 0, []⟩).reconcileCalls = 1 ∧
    ¬ ((executeCycleTB ⟨true, true, .flat, ⟨true, .nan⟩, ⟨true, .nan⟩, true, none⟩
      ⟨.HEALTHY, none, 0, false, 0, []⟩).cycleCount % 10 = 0) := by
  refine ⟨rfl, ?_, ?_⟩ <;>
    simp [executeCycleTB, shouldChangePosition, currentSignalOf]

/-- C6 amended: the first TradingBot variant reconciles on every hold cycle
regardless of the cycle ordinal, while the second variant invokes
reconciliation (after the hold or transition branch) exactly when the
cycle ordinal is a multiple of 10. -/
theorem reconcile_gating_amended :
    (∀ (env : TBEnv) (s : TBState), s.isCycleRunning = false →
      s.state ≠ .EMERGENCY → env.fetchOk = true → env.signalOk = true →
      env.signal = currentSignalOf s.position →
      (executeCycleTB env s).reconcileCalls = s.reconcileCalls + 1) ∧
    (∀ (env : TBEnv) (s : TBState), s.isCycleRunning = false →
      s.state ≠ .EMERGENCY → env.fetchOk = true → env.signalOk = true →
      (executeCycleV2 env s).reconcileCalls =
        s.reconcileCalls + (if (s.cycleCount + 1) % 10 = 0 then 1 else 0)) := by
  constructor
  · intro env s h1 h2 h3 h4 h5
    simp [executeCycleTB, h1, h2, h3, h4, h5, shouldChangePosition]
  · intro env s h1 h2 h3 h4
    by_cases h5 : shouldChangePosition (currentSignalOf s.position) env.signal = true <;>
      by_cases h6 : (s.cycleCount + 1) % 10 = 0 <;>
        simp [executeCycleV2, h1, h2, h3, h4, h5, h6]

/-- C6 amended witness: variant 1 reconciles on a hold cycle of ordinal 1;
variant 2 on a hold cycle of ordinal 10. -/
theorem reconcile_gating_amended_witness :
    (executeCycleTB ⟨true, true, .flat, ⟨true, .nan⟩, ⟨true, .nan⟩, true, none⟩
      ⟨.HEALTHY, none, 0, false, 0, []⟩).reconcileCalls
      = (⟨.HEALTHY, none, 0, false, 0, []⟩ : TBState).reconcileCalls + 1 ∧
    (executeCycleV2 ⟨true, true, .flat, ⟨true, .nan⟩, ⟨true, .nan⟩, true, none⟩
      ⟨.HEALTHY, none, 9, false, 0, []⟩).reconcileCalls
      = (⟨.HEALTHY, none, 9, false, 0, []⟩ : TBState).reconcileCalls
        + (if ((⟨.HEALTHY, none, 9, false, 0, []⟩ : TBState).cycleCount + 1) % 10 = 0
           then 1 else 0) :=
  ⟨reconcile_gating_amended.1 ⟨true, true, .flat, ⟨true, .nan⟩, ⟨true, .nan⟩, true, none⟩
     ⟨.HEALTHY, none, 0, false, 0, []⟩ rfl (by decide) rfl rfl rfl,
   reconcile_gating_amended.2 ⟨true, true, .flat, ⟨true, .nan⟩, ⟨true, .nan⟩, true, none⟩
     ⟨.HEALTHY, none, 9, false, 0, []⟩ rfl (by decide) rfl rfl⟩

/-- C7: liquidity is validated for both legs before any submission; if
either leg fails validation, no order is submitted for either leg, the
internal position is unchanged, and nothing is thrown (the attempt is
skipped, not fatal) — in the first TradingBot variant (via
`validateTrade`) and in the SpreadBot. -/
theorem open_validation_gate (sig : Signal) (dl kl : LiquidityCheck)
    (pos : Option Position) (env : SBEnv) (s : SBState)
    (hTB : validateTrade dl kl false = false)
    (hSB : validateLiquiditySB env.driftLiquidity false = false ∨
           validateLiquiditySB env.kmnoLiquidity false = false) :
    openPositionTB sig dl kl pos = ([], pos) ∧
    transitionPositionTB sig dl kl none = ([], none) ∧
    openPositionSB sig env s = (s, false) := by
  have h1 : openPositionTB sig dl kl pos = ([], pos) := by
    simp [openPositionTB, hTB]
  have h1n : openPositionTB sig dl kl none = ([], none) := by
    simp [openPositionTB, hTB]
  refine ⟨h1, ?_, ?_⟩
  · by_cases hf : sig = .flat
    · simp [transitionPositionTB, hf]
    · simp [transitionPositionTB, hf, h1n]
  · rcases hSB with h | h <;> simp [openPositionSB, h]

/-- C7 witness: the DRIFT-leg book cannot fill, so validation fails on that
leg and the open attempt is a no-op. -/
theorem open_validation_gate_witness :
    openPositionTB .long ⟨false, .inf⟩ ⟨true, .nan⟩ none = ([], none) ∧
    transitionPositionTB .long ⟨false, .inf⟩ ⟨true, .nan⟩ none = ([], none) ∧
    openPositionSB .long
      ⟨true, .long, ⟨false, .inf⟩, ⟨true, .nan⟩, none, fun _ => true, fun _ => true,
       fun _ => true, fun _ => true, fun _ => true, fun _ => true⟩
      ⟨.HEALTHY, none, 0, false, []⟩
      = (⟨.HEALTHY, none, 0, false, []⟩, false) :=
  open_validation_gate .long ⟨false, .inf⟩ ⟨true, .nan⟩ none
    ⟨true, .long, ⟨false, .inf⟩, ⟨true, .nan⟩, none, fun _ => true, fun _ => true,
     fun _ => true, fun _ => true, fun _ => true, fun _ => true⟩
    ⟨.HEALTHY, none, 0, false, []⟩
    (by decide) (Or.inl (by decide))

/-- C9: a cycle invocation that arrives while the previous cycle is still
running (`isCycleRunning = true`) is skipped entirely: the state — position,
bot state, cycle counter, order log — is returned unchanged, and nothing is
queued, in all three bot variants. -/
theorem reentrancy_guard :
    (∀ (env : SBEnv) (s : SBState), s.isCycleRunning = true →
      executeCycleSB env s = s) ∧
    (∀ (env : TBEnv) (s : TBState), s.isCycleRunning = true →
      executeCycleTB env s = s) ∧
    (∀ (env : TBEnv) (s : TBState), s.isCycleRunning = true →
      executeCycleV2 env s = s) := by
  refine ⟨fun env s h => ?_, fun env s h => ?_, fun env s h => ?_⟩
  · simp [executeCycleSB, h]
  · simp [executeCycleTB, h]
  · simp [executeCycleV2, h]

/-- C9 witness: a busy SpreadBot state is returned untouched. -/
theorem reentrancy_guard_witness :
    executeCycleSB
      ⟨true, .long, ⟨true, .nan⟩, ⟨true, .nan⟩, none, fun _ => true, fun _ => true,
       fun _ => true, fun _ => true, fun _ => true, fun _ => true⟩
      ⟨.HEALTHY, none, 7, true, []⟩
      = ⟨.HEALTHY, none, 7, true, []⟩ :=
  reentrancy_guard.1
    ⟨true, .long, ⟨true, .nan⟩, ⟨true, .nan⟩, none, fun _ => true, fun _ => true,
     fun _ => true, fun _ => true, fun _ => true, fun _ => true⟩
    ⟨.HEALTHY, none, 7, true, []⟩ rfl

/-- An order drawn from a conditional singleton equals the singleton's
element. -/
theorem mem_ite_singleton {c : Prop} [Decidable c] {r o : Order}
    (ho : o ∈ (if c then [r] else [])) : o = r := by
  split at ho
  · simpa using ho
  · simp at ho

/-- One EMERGENCY cycle of the SpreadBot: the state stays EMERGENCY, every
order submitted is reduce-only, and the recorded position is unchanged or
cleared. -/
theorem emergency_step_SB (env : SBEnv) (s : SBState) (hs : s.state = .EMERGENCY) :
    (executeCycleSB env s).state = .EMERGENCY ∧
    (∀ o ∈ (executeCycleSB env s).orders, o ∈ s.orders ∨ o.reduceOnly = true) ∧
    ((executeCycleSB env s).currentPosition = s.currentPosition ∨
      (executeCycleSB env s).currentPosition = none) := by
  by_cases hrun : s.isCycleRunning = true
  · have he : executeCycleSB env s = s := by
      simp [executeCycleSB, hrun]
    rw [he]
    exact ⟨hs, fun o ho => Or.inl ho, Or.inl rfl⟩
  · simp only [Bool.not_eq_true] at hrun
    cases hv : env.venuePos with
    | none =>
      have he : executeCycleSB env s =
          { s with cycleCount := s.cycleCount + 1, currentPosition := none } := by
        simp [executeCycleSB, hrun, hs, closePositionSB, hv]
      rw [he]
      exact ⟨hs, fun o ho => Or.inl ho, Or.inr rfl⟩
    | some p =>
      by_cases hok1 : (executeOrder env.attDriftClose).2 = true
      · by_cases hok2 : (executeOrder env.attKmnoClose).2 = true
        · have he : executeCycleSB env s =
              { s with cycleCount := s.cycleCount + 1, currentPosition := none,
                       orders := s.orders ++
                         (List.replicate (executeOrder env.attDriftClose).1 (closeDriftOrder p) ++
                          List.replicate (executeOrder env.attKmnoClose).1 (closeKmnoOrder p)) } := by
            simp [executeCycleSB, hrun, hs, closePositionSB, hv, executeOrderLog,
              hok1, hok2]
          rw [he]
          refine ⟨hs, ?_, Or.inr rfl⟩
          intro o ho
          simp only [List.mem_append] at ho
          rcases ho with h | h | h
          · exact Or.inl h
          · exact Or.inr (by rw [List.eq_of_mem_replicate h]; rfl)
          · exact Or.inr (by rw [List.eq_of_mem_replicate h]; rfl)
        · simp only [Bool.not_eq_true] at hok2
          have he : executeCycleSB env s =
              { s with cycleCount := s.cycleCount + 1, state := .EMERGENCY,
                       orders := s.orders ++
                         (List.replicate (executeOrder env.attDriftClose).1 (closeDriftOrder p) ++
                          List.replicate (executeOrder env.attKmnoClose).1 (closeKmnoOrder p)) } := by
            simp [executeCycleSB, hrun, hs, closePositionSB, hv, executeOrderLog,
              hok1, hok2]
          rw [he]
          refine ⟨rfl, ?_, Or.inl rfl⟩
          intro o ho
          simp only [List.mem_append] at ho
          rcases ho with h | h | h
          · exact Or.inl h
          · exact Or.inr (by rw [List.eq_of_mem_replicate h]; rfl)
          · exact Or.inr (by rw [List.eq_of_mem_replicate h]; rfl)
      · simp only [Bool.not_eq_true] at hok1
        have he : executeCycleSB env s =
            { s with cycleCount := s.cycleCount + 1, state := .EMERGENCY,
                     orders := s.orders ++
                       List.replicate (executeOrder env.attDriftClose).1 (closeDriftOrder p) } := by
          simp [executeCycleSB, hrun, hs, closePositionSB, hv, executeOrderLog, hok1]
        rw [he]
        refine ⟨rfl, ?_, Or.inl rfl⟩
        intro o ho
        simp only [List.mem_append] at ho
        rcases ho with h | h
        · exact Or.inl h
        · exact Or.inr (by rw [List.eq_of_mem_replicate h]; rfl)

/-- One EMERGENCY cycle of the first TradingBot variant: same invariant. -/
theorem emergency_step_TB (env : TBEnv) (s : TBState) (hs : s.state = .EMERGENCY) :
    (executeCycleTB env s).state = .EMERGENCY ∧
    (∀ o ∈ (executeCycleTB env s).orders, o ∈ s.orders ∨ o.reduceOnly = true) ∧
    ((executeCycleTB env s).position = s.position ∨
      (executeCycleTB env s).position = none) := by
  by_cases hrun : s.isCycleRunning = true
  · have he : executeCycleTB env s = s := by
      simp [executeCycleTB, hrun]
    rw [he]
    exact ⟨hs, fun o ho => Or.inl ho, Or.inl rfl⟩
  · simp only [Bool.not_eq_true] at hrun
    cases hp : s.position with
    | none =>
      have he : executeCycleTB env s =
          { s with cycleCount := s.cycleCount + 1, position := none } := by
        simp [executeCycleTB, hrun, hs, closePositionTB, hp]
      rw [he]
      exact ⟨hs, fun o ho => Or.inl ho, Or.inr rfl⟩
    | some p =>
      have he : executeCycleTB env s =
          { s with cycleCount := s.cycleCount + 1, position := none,
                   orders := s.orders ++
                     ((if p.drift ≠ 0 then [closeDriftOrder p] else []) ++
                      (if p.kmno ≠ 0 then [closeKmnoOrder p] else [])) } := by
        simp [executeCycleTB, hrun, hs, closePositionTB, hp]
      rw [he]
      refine ⟨hs, ?_, Or.inr rfl⟩
      intro o ho
      simp only [List.mem_append] at ho
      rcases ho with h | h | h
      · exact Or.inl h
      · exact Or.inr (by rw [mem_ite_singleton h]; rfl)
      · exact Or.inr (by rw [mem_ite_singleton h]; rfl)

/-- The EMERGENCY invariant over any sequence of SpreadBot cycles. -/
theorem emergency_run_SB (inputs : List SBEnv) :
    ∀ (s : SBState), s.state = .EMERGENCY →
      (runCyclesSB s inputs).state = .EMERGENCY ∧
      (∀ o ∈ (runCyclesSB s inputs).orders, o ∈ s.orders ∨ o.reduceOnly = true) ∧
      ((runCyclesSB s inputs).currentPosition = s.currentPosition ∨
        (runCyclesSB s inputs).currentPosition = none) := by
  induction inputs with
  | nil =>
    intro s hs
    exact ⟨hs, fun o ho => Or.inl ho, Or.inl rfl⟩
  | cons env rest ih =>
    intro s hs
    have hstep := emergency_step_SB env s hs
    have hrest := ih (executeCycleSB env s) hstep.1
    simp only [runCyclesSB]
    refine ⟨hrest.1, ?_, ?_⟩
    · intro o ho
      rcases hrest.2.1 o ho with h | h
      · exact hstep.2.1 o h
      · exact Or.inr h
    · rcases hrest.2.2 with h | h
      · rw [h]
        exact hstep.2.2
      · exact Or.inr h

/-- The EMERGENCY invariant over any sequence of first-variant TradingBot
cycles. -/
theorem emergency_run_TB (envs : List TBEnv) :
    ∀ (s : TBState), s.state = .EMERGENCY →
      (runCyclesTB s envs).state = .EMERGENCY ∧
      (∀ o ∈ (runCyclesTB s envs).orders, o ∈ s.orders ∨ o.reduceOnly = true) ∧
      ((runCyclesTB s envs).position = s.position ∨
        (runCyclesTB s envs).position = none) := by
  induction envs with
  | nil =>
    intro s hs
    exact ⟨hs, fun o ho => Or.inl ho, Or.inl rfl⟩
  | cons env rest ih =>
    intro s hs
    have hstep := emergency_step_TB env s hs
    have hrest := ih (executeCycleTB env s) hstep.1
    simp only [runCyclesTB]
    refine ⟨hrest.1, ?_, ?_⟩
    · intro o ho
      rcases hrest.2.1 o ho with h | h
      · exact hstep.2.1 o h
      · exact Or.inr h
    · rcases hrest.2.2 with h | h
      · rw [h]
        exact hstep.2.2
      · exact Or.inr h

/-- C8: once the bot is in EMERGENCY, over every subsequent sequence of
cycles the state remains EMERGENCY (it never returns to HEALTHY or
DEGRADED), every order ever submitted is reduce-only (closes only — a
no-op when already flat produces no orders and no new position is ever
opened), and the recorded position is only ever cleared — in the SpreadBot
and in the first TradingBot variant. -/
theorem emergency_absorbing :
    (∀ (s : SBState), s.state = .EMERGENCY → ∀ (inputs : List SBEnv),
      (runCyclesSB s inputs).state = .EMERGENCY ∧
      (∀ o ∈ (runCyclesSB s inputs).orders, o ∈ s.orders ∨ o.reduceOnly = true) ∧
      ((runCyclesSB s inputs).currentPosition = s.currentPosition ∨
        (runCyclesSB s inputs).currentPosition = none)) ∧
    (∀ (s : TBState), s.state = .EMERGENCY → ∀ (envs : List TBEnv),
      (runCyclesTB s envs).state = .EMERGENCY ∧
      (∀ o ∈ (runCyclesTB s envs).orders, o ∈ s.orders ∨ o.reduceOnly = true) ∧
      ((runCyclesTB s envs).position = s.position ∨
        (runCyclesTB s envs).position = none)) :=
  ⟨fun s hs inputs => emergency_run_SB inputs s hs,
   fun s hs envs => emergency_run_TB envs s hs⟩

/-- C8 witness: two EMERGENCY cycles of the SpreadBot from an open LONG
spread remain in EMERGENCY. -/
theorem emergency_absorbing_witness :
    (runCyclesSB ⟨.EMERGENCY, some ⟨10, -100, .long⟩, 5, false, []⟩
      [⟨true, .long, ⟨true, .nan⟩, ⟨true, .nan⟩, some ⟨10, -100, .long⟩,
        fun _ => true, fun _ => true, fun _ => true, fun _ => true,
        fun _ => true, fun _ => true⟩,
       ⟨true, .long, ⟨true, .nan⟩, ⟨true, .nan⟩, none,
        fun _ => true, fun _ => true, fun _ => true, fun _ => true,
        fun _ => true, fun _ => true⟩]).state = .EMERGENCY :=
  ((emergency_absorbing.1 ⟨.EMERGENCY, some ⟨10, -100, .long⟩, 5, false, []⟩ rfl)
    [⟨true, .long, ⟨true, .nan⟩, ⟨true, .nan⟩, some ⟨10, -100, .long⟩,
      fun _ => true, fun _ => true, fun _ => true, fun _ => true,
      fun _ => true, fun _ => true⟩,
     ⟨true, .long, ⟨true, .nan⟩, ⟨true, .nan⟩, none,
      fun _ => true, fun _ => true, fun _ => true, fun _ => true,
      fun _ => true, fun _ => true⟩]).1

/-- C1: in a dual-leg open transition where the DRIFT leg's execution
succeeds and the KMNO leg's execution fails on all `MAX_RETRIES` attempts,
the cycle ends in EMERGENCY, the internal position stays clear, and the
only orders submitted are the DRIFT-leg open attempts and the KMNO-leg
open attempts — in particular no order reversing the first leg (every
submitted DRIFT order has the open direction and is not reduce-only). -/
theorem legB_exhausted_emergency_no_unwind (env : SBEnv) (s : SBState)
    (hrun : s.isCycleRunning = false)
    (hstate : s.state ≠ .EMERGENCY)
    (hsigOk : env.signalOk = true)
    (hpos : s.currentPosition = none)
    (hflat : env.signal ≠ .flat)
    (hdl : validateLiquiditySB env.driftLiquidity false = true)
    (hkl : validateLiquiditySB env.kmnoLiquidity false = true)
    (hA : (executeOrder env.attDriftOpen).2 = true)
    (hB1 : env.attKmnoOpen 1 = false) (hB2 : env.attKmnoOpen 2 = false)
    (hB3 : env.attKmnoOpen 3 = false) :
    (executeCycleSB env s).state = .EMERGENCY ∧
    (executeCycleSB env s).currentPosition = none ∧
    (executeCycleSB env s).orders =
      s.orders ++ List.replicate (executeOrder env.attDriftOpen).1 (openDriftOrder env.signal)
        ++ List.replicate MAX_RETRIES (openKmnoOrder env.signal) ∧
    (∀ o ∈ (executeCycleSB env s).orders, o ∉ s.orders →
      o.reduceOnly = false ∧
      (o.market = .DRIFT → o.direction =
        (if 0 < env.signal.val then PositionDirection.LONG else .SHORT))) := by
  have hB := executeOrder_all_fail env.attKmnoOpen hB1 hB2 hB3
  have he : executeCycleSB env s =
      { s with cycleCount := s.cycleCount + 1, state := .EMERGENCY,
               orders := s.orders
                 ++ List.replicate (executeOrder env.attDriftOpen).1
                      (openDriftOrder env.signal)
                 ++ List.replicate MAX_RETRIES (openKmnoOrder env.signal) } := by
    simp [executeCycleSB, hrun, hstate, hsigOk, currentSignalOf, hflat,
      changePositionSB, hpos, openPositionSB, hdl, hkl, executeOrderLog, hA, hB]
  rw [he]
  refine ⟨rfl, hpos, rfl, ?_⟩
  intro o ho hnew
  simp only [List.mem_append] at ho
  rcases ho with (h | h) | h
  · exact absurd h hnew
  · have := List.eq_of_mem_replicate h
    subst this
    exact ⟨rfl, fun _ => rfl⟩
  · have := List.eq_of_mem_replicate h
    subst this
    refine ⟨rfl, fun hm => ?_⟩
    exact absurd hm (by simp [openKmnoOrder])

/-- C1 witness: a HEALTHY flat bot receives a LONG signal; the DRIFT leg
fills on the first attempt, the KMNO leg fails all three attempts. -/
theorem legB_exhausted_emergency_no_unwind_witness :
    (executeCycleSB
      ⟨true, .long, ⟨true, .nan⟩, ⟨true, .nan⟩, none, fun _ => true, fun _ => false,
       fun _ => true, fun _ => true, fun _ => true, fun _ => true⟩
      ⟨.HEALTHY, none, 0, false, []⟩).state = .EMERGENCY :=
  (legB_exhausted_emergency_no_unwind
    ⟨true, .long, ⟨true, .nan⟩, ⟨true, .nan⟩, none, fun _ => true, fun _ => false,
     fun _ => true, fun _ => true, fun _ => true, fun _ => true⟩
    ⟨.HEALTHY, none, 0, false, []⟩
    rfl (by decide) rfl rfl (by decide) (by decide) (by decide)
    (by decide) rfl rfl rfl).1

end DriftBot
